import Mathlib

/-!
Verification of the week-block spreadsheet transfer tool.

Shallow embedding of the repository's Python modules:
  * `excel_layout.py`  (normalize_text, normalize_header, parse_number,
    detect_week_blocks, find_data_start_row, WeekBlock)
  * `parsers.py`       (normalize_string, parse_number, SectionParser)
  * `transfer.py`      (_build_key_map, _aggregate_source, _is_formula_cell,
    analyze_transfer, transfer_week)
  * `actions/report_to_cost.py` (ReportToCostAction)

Cell values are modelled as empty / numeric / text (`CellVal`); Python floats
are modelled as rationals, so floating-point rounding and the non-finite
literals inf/nan are outside the model (no claim exercises them).  Python
text operations are modelled at ASCII fidelity — `str.lower`/`str.casefold`
and the regex character classes of the source agree with the Lean versions
on ASCII input, which is all the fixtures and claims use — and are written
as structurally recursive functions over character lists so that every
concrete evaluation reduces.  A worksheet is a total function from
(row, column) to cell values together with its populated extent and its list
of merged ranges, matching the openpyxl access pattern `ws.cell(r, c).value`,
`ws.max_row`, `ws.max_column`, `ws.merged_cells.ranges` (reading a missing
cell yields `None`, i.e. `CellVal.blank`; openpyxl's implicit creation of
empty cell objects on read changes no cell's value).
-/

attribute [local semireducible] Rat.add Rat.mul Rat.inv Rat.sub Rat.ofScientific

/-- A spreadsheet cell value: `None`, a number, or a string. -/
inductive CellVal where
  | blank : CellVal
  | num : ℚ → CellVal
  | str : String → CellVal
deriving DecidableEq

/-- A merged-cell range, as exposed by `ws.merged_cells.ranges`. -/
structure MergedRange where
  minRow : Nat
  maxRow : Nat
  minCol : Nat
  maxCol : Nat
deriving DecidableEq

/-- A worksheet: populated extent, merged ranges, and the cell contents. -/
structure Sheet where
  maxRow : Nat
  maxCol : Nat
  merged : List MergedRange
  cells : Nat → Nat → CellVal

/-- Assigning `cell.value` at one coordinate. -/
def setCell (ws : Sheet) (r c : Nat) (v : CellVal) : Sheet :=
  { ws with cells := fun r' c' => if r' = r ∧ c' = c then v else ws.cells r' c' }

/-- Python truthiness of a cell value (`None`, `0`/`0.0` and `""` are falsy). -/
def pyTruthy (v : CellVal) : Bool :=
  match v with
  | .blank => false
  | .num q => q ≠ 0
  | .str s => s ≠ ""

/-- Python `str()` of a numeric value, approximating the float repr
(`7.0` for integral values).  No claim depends on the exact rendering of a
numeric cell as text; it is only consulted for `startswith("=")` checks and
for key/label text, and every fixture uses genuine strings there. -/
def pyRatStr (q : ℚ) : String :=
  if q.den = 1 then toString q.num ++ ".0" else toString q.num ++ "/" ++ toString q.den

/-- Python `str(value)` on a cell value (`str(None) = "None"`). -/
def pyStr (v : CellVal) : String :=
  match v with
  | .blank => "None"
  | .num q => pyRatStr q
  | .str s => s

/-- The maximal runs of non-whitespace characters, i.e. Python `s.split()`. -/
def wordsLoop (cur : List Char) : List Char → List (List Char)
  | [] => if cur.isEmpty then [] else [cur.reverse]
  | c :: rest =>
    if c.isWhitespace then
      if cur.isEmpty then wordsLoop [] rest else cur.reverse :: wordsLoop [] rest
    else wordsLoop (c :: cur) rest

/-- Rejoin words with single spaces, i.e. Python `" ".join(words)`. -/
def joinSpace : List (List Char) → List Char
  | [] => []
  | [w] => w
  | w :: ws => w ++ ' ' :: joinSpace ws

/-- Python `" ".join(s.split())`: collapse whitespace runs, strip ends. -/
def collapseWSL (l : List Char) : List Char :=
  joinSpace (wordsLoop [] l)

/-- `collapseWSL` on strings. -/
def collapseWS (s : String) : String :=
  String.mk (collapseWSL s.toList)

/-- Python `s.strip()`: drop leading and trailing whitespace. -/
def trimL (l : List Char) : List Char :=
  ((l.dropWhile Char.isWhitespace).reverse.dropWhile Char.isWhitespace).reverse

/-- Python `s.lower()`/`s.casefold()` at ASCII fidelity. -/
def toLowerL (l : List Char) : List Char :=
  l.map Char.toLower

/-- `excel_layout.normalize_text`: `""` for `None`, else collapse whitespace
and casefold. -/
def normalizeText (v : CellVal) : String :=
  match v with
  | .blank => ""
  | v => String.mk (toLowerL (collapseWSL (pyStr v).toList))

/-- One character of `excel_layout.normalize_header`'s regex step
(`re.sub(r"[^a-z0-9]+", " ", text)`): non-`[a-z0-9]` characters become
spaces (runs become runs of spaces, collapsed right after). -/
def headerChar (c : Char) : Char :=
  if (('a' ≤ c ∧ c ≤ 'z') ∨ ('0' ≤ c ∧ c ≤ '9')) then c else ' '

/-- `excel_layout.normalize_header`: normalize, replace non-alphanumeric runs
by spaces, collapse. -/
def normalizeHeader (v : CellVal) : String :=
  String.mk (collapseWSL ((normalizeText v).toList.map headerChar))

/-- A character kept by `parsers.normalize_string`'s regex
(`re.sub(r'[^a-z0-9\s]', '', s)` deletes everything else). -/
def keepStringChar (c : Char) : Bool :=
  (('a' ≤ c ∧ c ≤ 'z') ∨ ('0' ≤ c ∧ c ≤ '9') ∨ c.isWhitespace : Bool)

/-- `parsers.normalize_string`: lower, delete punctuation, collapse spaces. -/
def normalizeString (s : String) : String :=
  String.mk (collapseWSL ((toLowerL s.toList).filter keepStringChar))

/-- The reserved month labels of `excel_layout.MONTHS`. -/
def months : List String :=
  ["january", "february", "march", "april", "may", "june", "july",
   "august", "september", "october", "november", "december"]

/-- `excel_layout.is_month_label`. -/
def isMonthLabel (label : String) : Bool := months.contains label

/-- Python `s.replace(" ", "")` (single-character pattern). -/
def dropSpaces (l : List Char) : List Char :=
  l.filter (fun c => !(c == ' '))

/-- `excel_layout.is_qty_header`. -/
def isQtyHeader (v : CellVal) : Bool :=
  let text := normalizeHeader v
  ["q ty", "qty", "q\x27ty", "q ty"].contains text
    || String.mk (dropSpaces text.toList) == "qty"

/-- `excel_layout.is_manhour_header`. -/
def isManhourHeader (v : CellVal) : Bool :=
  ["m hour", "man hour", "man hours", "manhour"].contains (normalizeHeader v)

/-- `excel_layout.is_timesheet_header`. -/
def isTimesheetHeader (v : CellVal) : Bool :=
  ["timesheet", "time sheet", "timesheet hours", "timesheet h"].contains (normalizeHeader v)

/-- Numeric value of a digit string. -/
def digitsVal (l : List Char) : Nat :=
  l.foldl (fun a c => 10 * a + (c.toNat - 48)) 0

/-- Python `float(s)` on an already-stripped character list: optional sign,
decimal mantissa with at most one dot, optional exponent.  Yields the exact
rational the literal denotes (the code's float rounding is not modelled),
and `none` exactly when Python raises `ValueError`.  Digit-group underscores
and the non-finite literals inf/nan are outside the model; no input in the
repository's claims uses them. -/
def pyFloatL? (cs : List Char) : Option ℚ :=
  let sgn : ℚ := match cs with | '-' :: _ => -1 | _ => 1
  let cs := match cs with | '+' :: t => t | '-' :: t => t | _ => cs
  let (mant, expPart) := cs.span (fun c => !(c == 'e' || c == 'E'))
  let expVal? : Option ℤ :=
    match expPart with
    | [] => some 0
    | _ :: t =>
      let esgn : ℤ := match t with | '-' :: _ => -1 | _ => 1
      let t := match t with | '+' :: u => u | '-' :: u => u | _ => t
      if !t.isEmpty && t.all Char.isDigit then some (esgn * digitsVal t) else none
  let (ip, dotPart) := mant.span (fun c => !(c == '.'))
  let frac : List Char := match dotPart with | [] => [] | _ :: t => t
  match expVal? with
  | none => none
  | some e =>
    if ip.all Char.isDigit && frac.all Char.isDigit && (!ip.isEmpty || !frac.isEmpty) then
      some (sgn * ((digitsVal ip : ℚ) + (digitsVal frac : ℚ) / (10 : ℚ) ^ frac.length)
        * (10 : ℚ) ^ e)
    else none

/-- `excel_layout.parse_number`: `None` for blanks, passthrough for numbers;
for strings: strip, drop spaces, and if both `.` and `,` occur drop the `,`
(thousands separator), otherwise turn `,` into `.` (decimal comma); `none`
when the remainder does not parse (Python never raises here). -/
def parseNumberL (v : CellVal) : Option ℚ :=
  match v with
  | .blank => none
  | .num q => some q
  | .str s =>
    let text := trimL s.toList
    if text.isEmpty then none
    else
      let text := dropSpaces text
      let text :=
        if text.contains ',' && text.contains '.' then text.filter (fun c => !(c == ','))
        else text.map (fun c => if c == ',' then '.' else c)
      pyFloatL? text

/-- `parsers.parse_number`: like the layout variant but the `,` is always
turned into `.`, with no thousands-separator disambiguation. -/
def parseNumberP (v : CellVal) : Option ℚ :=
  match v with
  | .blank => none
  | .num q => some q
  | .str s =>
    let t := trimL s.toList
    if t.isEmpty then none
    else pyFloatL? ((dropSpaces t).map (fun c => if c == ',' then '.' else c))

/-- Python `s.startswith("=")`. -/
def startsWithEq (s : String) : Bool :=
  match s.toList with
  | c :: _ => c == '='
  | [] => false

/-- `transfer._is_formula_cell`: openpyxl reports a formula cell by data
type `"f"` exactly when its value is the formula text, so the check reduces
to "the value is a string starting with `=`". -/
def isFormulaCell (v : CellVal) : Bool :=
  match v with
  | .str s => startsWithEq s
  | _ => false

example : normalizeString "Man/Hour" = "manhour" := by decide
example : normalizeText (.str "Man/Hour") = "man/hour" := by decide
example : normalizeHeader (.str "MAN-HOUR") = "man hour" := by decide
example : parseNumberL (.str "1 234,5") = some (2469 / 2) := by decide
example : parseNumberL (.str "1,234.5") = some (2469 / 2) := by decide
example : parseNumberP (.str "1,234.5") = none := by decide
example : parseNumberP (.str "1,5") = some (3 / 2) := by decide
example : pyFloatL? "-1.5e2".toList = some (-150) := by decide
example : pyStr (.num 7) = "7.0" := by decide
example : isFormulaCell (.str "=SUM(A1)") = true := by decide

/-- `excel_layout.WeekBlock` (invariant in detected blocks:
`end_col = start_col + 4`). -/
structure WeekBlock where
  label : String
  startCol : Nat
  endCol : Nat
deriving DecidableEq

/-- The inclusive row/column range `lo..hi` as a list
(Python `range(lo, hi + 1)`). -/
def rowRange (lo hi : Nat) : List Nat :=
  List.range' lo (hi + 1 - lo)

/-- `excel_layout.header_pattern_matches`: exactly five header cells shaped
[qty, manhour, qty, manhour, timesheet]. -/
def headerPatternMatches (items : List CellVal) : Bool :=
  match items with
  | [a, b, c, d, e] =>
    isQtyHeader a && isManhourHeader b && isQtyHeader c && isManhourHeader d
      && isTimesheetHeader e
  | _ => false

/-- Python `str(label_value).strip()`. -/
def pyStrStrip (v : CellVal) : String :=
  String.mk (trimL (pyStr v).toList)

/-- The merged-cell pass of `excel_layout.detect_week_blocks`: every merged
range spanning exactly row 10 and five columns whose label is neither blank
nor a month name and whose row-13 sub-headers match the week pattern, in the
order the merged ranges are enumerated. -/
def mergedWeekBlocks (ws : Sheet) : List WeekBlock :=
  ws.merged.foldl
    (fun blocks mr =>
      if mr.minRow = 10 ∧ mr.maxRow = 10 ∧ mr.maxCol - mr.minCol = 4 then
        let lv := ws.cells 10 mr.minCol
        let label := normalizeText lv
        if label = "" ∨ isMonthLabel label then blocks
        else if headerPatternMatches
            ((rowRange mr.minCol mr.maxCol).map (fun c => ws.cells 13 c)) then
          blocks ++ [⟨pyStrStrip lv, mr.minCol, mr.maxCol⟩]
        else blocks
      else blocks)
    []

/-- One candidate start column of the fallback scan of
`excel_layout.detect_week_blocks` (the loop body of
`for start_col in range(1, max_col - 3)`). -/
def fallbackBlockAt (ws : Sheet) (sc : Nat) : Option WeekBlock :=
  let ec := sc + 4
  if ec > ws.maxCol then none
  else
    let lv := ws.cells 10 sc
    let label := normalizeText lv
    if label = "" ∨ isMonthLabel label then none
    else if headerPatternMatches ((rowRange sc ec).map (fun c => ws.cells 13 c)) then
      some ⟨pyStrStrip lv, sc, ec⟩
    else none

/-- The linear fallback pass of `excel_layout.detect_week_blocks`:
`range(1, max_col - 3)` has the start columns `1 .. max_col - 4`, and the
loop appends a block per matching window in that order. -/
def fallbackWeekBlocks (ws : Sheet) : List WeekBlock :=
  (List.range' 1 (ws.maxCol - 4)).filterMap (fallbackBlockAt ws)

/-- `excel_layout.detect_week_blocks`: merged-cell pass, falling back to the
linear scan when it finds nothing. -/
def detectWeekBlocks (ws : Sheet) : List WeekBlock :=
  let blocks := mergedWeekBlocks ws
  if blocks.isEmpty then fallbackWeekBlocks ws else blocks

/-- The Python truthiness test of
`if normalize_text(value) and normalize_text(value) != normalize_text("Description of Work")`
in `excel_layout.find_data_start_row`. -/
def fdsrQual (ws : Sheet) (r : Nat) : Bool :=
  normalizeText (ws.cells r 3) != "" && normalizeText (ws.cells r 3) != "description of work"

/-- The scan loop of `excel_layout.find_data_start_row` over the remaining
rows (`None` cells are skipped, which coincides with `fdsrQual` being false
on them). -/
def fdsrGo (ws : Sheet) : List Nat → Option Nat
  | [] => none
  | r :: rest =>
    match ws.cells r 3 with
    | .blank => fdsrGo ws rest
    | _ => if fdsrQual ws r then some r else fdsrGo ws rest

/-- `excel_layout.find_data_start_row`: first qualifying row in
`min_row .. max_row`, else `min_row`. -/
def findDataStartRow (ws : Sheet) (minRow : Nat) : Nat :=
  (fdsrGo ws (rowRange minRow ws.maxRow)).getD minRow

/-- `parsers.ParsedRow` (the `section` attribute is called `sect` because
`section` is reserved in Lean). -/
structure ParsedRow where
  rowIdx : Nat
  sect : String
  rawKey : String
  key : String
  values : List (String × Option ℚ)
deriving DecidableEq

/-- The raw key of one row in `parsers.SectionParser.parse`:
`str(key_cell.value) if key_cell.value else ""`. -/
def rowRawKey (sheet : Sheet) (keyColIdx r : Nat) : String :=
  if pyTruthy (sheet.cells r keyColIdx) then pyStr (sheet.cells r keyColIdx) else ""

/-- The row loop of `parsers.SectionParser.parse`, carrying the running
section label.  Appending each data row to the result list in row order is
rendered as consing onto the recursive call. -/
def parseGo (sheet : Sheet) (keyColIdx : Nat) (dataCols : List Nat)
    (valueMapping : List (String × Nat)) (detectSections : Bool)
    (cur : String) : List Nat → List ParsedRow
  | [] => []
  | r :: rest =>
    let rawKey := rowRawKey sheet keyColIdx r
    let keyNorm := normalizeString rawKey
    if keyNorm = "" then
      parseGo sheet keyColIdx dataCols valueMapping detectSections cur rest
    else if detectSections
        && dataCols.all (fun c => (parseNumberP (sheet.cells r c)).isNone) then
      parseGo sheet keyColIdx dataCols valueMapping detectSections
        (String.mk (collapseWSL rawKey.toList)) rest
    else
      ⟨r, cur, rawKey, keyNorm,
        valueMapping.map (fun p => (p.1, parseNumberP (sheet.cells r p.2)))⟩
        :: parseGo sheet keyColIdx dataCols valueMapping detectSections cur rest

/-- `parsers.SectionParser.parse` with the constructor arguments
(`sheet`, `key_col_idx`, `start_row`) passed explicitly; rows run from
`start_row` to `sheet.max_row`, the initial running section is the reserved
`"__NO_SECTION__"` label. -/
def sectionParse (sheet : Sheet) (keyColIdx startRow : Nat) (dataCols : List Nat)
    (valueMapping : List (String × Nat)) (detectSections : Bool) : List ParsedRow :=
  parseGo sheet keyColIdx dataCols valueMapping detectSections "__NO_SECTION__"
    (rowRange startRow sheet.maxRow)

/-- `transfer.TransferSettings`. -/
structure TransferSettings where
  writeAllDuplicates : Bool
  overwriteFormulas : Bool
deriving DecidableEq

/-- The per-key totals dictionary of `transfer._aggregate_source`
(`{"planned": .., "actual": .., "timesheet": ..}`). -/
structure Totals where
  planned : Option ℚ
  actual : Option ℚ
  timesheet : Option ℚ
deriving DecidableEq

/-- An insertion-ordered association of keys to lists of values, standing in
for a Python `dict` of lists together with `setdefault(..., []).append(...)`:
a new key goes to the back, an existing key's list grows at its end. -/
def kmInsert {α : Type} [DecidableEq α] (m : List (α × List Nat)) (k : α) (r : Nat) :
    List (α × List Nat) :=
  match m with
  | [] => [(k, [r])]
  | (k', rs) :: t => if k' = k then (k', rs ++ [r]) :: t else (k', rs) :: kmInsert t k r

/-- Python `dict.get` on such an association (first, hence unique, match). -/
def kmLookup {α : Type} [DecidableEq α] (m : List (α × List Nat)) (k : α) :
    Option (List Nat) :=
  (m.find? (fun p => p.1 = k)).map (fun p => p.2)

/-- The keys of a key map, in insertion order. -/
def kmKeys {α : Type} (m : List (α × List Nat)) : List α := m.map Prod.fst

/-- All row indices of a key map, grouped by key. -/
def kmRows {α : Type} (m : List (α × List Nat)) : List Nat :=
  (m.map Prod.snd).flatten

/-- The loop body of `transfer._build_key_map`: skip rows whose normalized
column-C text is empty, otherwise record the row under its key. -/
def bkmStep (ws : Sheet) (m : List (String × List Nat)) (r : Nat) :
    List (String × List Nat) :=
  let key := normalizeText (ws.cells r 3)
  if key = "" then m else kmInsert m key r

/-- `transfer._build_key_map`. -/
def buildKeyMap (ws : Sheet) (startRow : Nat) : List (String × List Nat) :=
  (rowRange startRow ws.maxRow).foldl (bkmStep ws) []

/-- One guarded accumulation of `transfer._aggregate_source`:
`if v is not None: totals[f] = (totals[f] or 0.0) + v`.  Python's `or`
yields `0.0` exactly when the accumulator is `None` or `0.0`, which
coincides with `Option.getD 0`. -/
def accAdd (acc : Option ℚ) (v : Option ℚ) : Option ℚ :=
  match v with
  | none => acc
  | some x => some (acc.getD 0 + x)

/-- The inner row loop of `transfer._aggregate_source` for one source row. -/
def aggRow (ws : Sheet) (blk : WeekBlock) (t : Totals) (r : Nat) : Totals :=
  { planned := accAdd t.planned (parseNumberL (ws.cells r blk.startCol))
    actual := accAdd t.actual (parseNumberL (ws.cells r (blk.startCol + 2)))
    timesheet := accAdd t.timesheet (parseNumberL (ws.cells r (blk.startCol + 4))) }

/-- `transfer._aggregate_source`: per-key summed totals (in key-map order)
plus the duplicate-source-key count. -/
def aggregateSource (ws : Sheet) (blk : WeekBlock) (startRow : Nat) :
    List (String × Totals) × Nat :=
  let km := buildKeyMap ws startRow
  (km.map (fun p => (p.1, p.2.foldl (aggRow ws blk) ⟨none, none, none⟩)),
   (km.filter (fun p => 1 < p.2.length)).length)

/-- The per-cell writability test `settings.overwrite_formulas or not
_is_formula_cell(cell)` shared by `analyze_transfer` and `transfer_week`. -/
def okCell (ovf : Bool) (v : CellVal) : Bool :=
  ovf || !(isFormulaCell v)

/-- One field of the reason/writable/skip bookkeeping block shared by
`analyze_transfer` and `transfer_week`: for a non-null source value, a
writable cell counts one writable, else the reason `"<tag> has formula"` and
one skipped formula cell are recorded. -/
def fieldStat (ovf : Bool) (srcVal : Option ℚ) (v : CellVal) (tag : String) :
    List String × Nat × Nat :=
  match srcVal with
  | none => ([], 0, 0)
  | some _ => if okCell ovf v then ([], 1, 0) else ([tag ++ " has formula"], 0, 1)

/-- `writable_cells` after the three field checks. -/
def writableCount (ovf : Bool) (tot : Totals) (pv av tv : CellVal) : Nat :=
  (fieldStat ovf tot.planned pv "planned").2.1
    + (fieldStat ovf tot.actual av "actual").2.1
    + (fieldStat ovf tot.timesheet tv "timesheet").2.1

/-- `has_values = any(value is not None for value in totals.values())`. -/
def hasAnyValue (tot : Totals) : Bool :=
  tot.planned.isSome || tot.actual.isSome || tot.timesheet.isSome

/-- `action = "write" if has_values and writable_cells else "skip"`. -/
def actionOf (ovf : Bool) (tot : Totals) (pv av tv : CellVal) : String :=
  if hasAnyValue tot && writableCount ovf tot pv av tv != 0 then "write" else "skip"

/-- The `", ".join(reasons) if reasons else ""` rendering. -/
def joinReasons : List String → String
  | [] => ""
  | [x] => x
  | x :: xs => x ++ ", " ++ joinReasons xs

/-- One entry of `diff_rows` (dictionary insertion order preserved as
fields). -/
structure DiffRow where
  key : String
  srcPlanned : Option ℚ
  srcActual : Option ℚ
  srcTimesheet : Option ℚ
  tgtPlanned : CellVal
  tgtActual : CellVal
  tgtTimesheet : CellVal
  action : String
  reason : String
deriving DecidableEq

/-- `transfer.TransferResult` (`diff_rows` entries as `DiffRow`). -/
structure TransferResult where
  diffRows : List DiffRow
  logs : List String
  writtenCells : Nat
  matchedKeys : Nat
  missingTargetKeys : Nat
  duplicateSourceKeys : Nat
  duplicateTargetKeys : Nat
  skippedFormulaCells : Nat
deriving DecidableEq

/-- The mutable state threaded through `transfer_week`'s key loop: target
sheet plus the accumulating outputs. -/
structure TWState where
  sheet : Sheet
  diffs : List DiffRow
  logs : List String
  written : Nat
  missing : Nat
  skippedF : Nat

/-- One guarded cell write of `transfer.transfer_week`:
`if totals[f] is not None and (overwrite_formulas or not formula): write`,
threading the written-cell count. -/
def writeField (sh : Sheet × Nat) (ok : Bool) (r c : Nat) (v : Option ℚ) : Sheet × Nat :=
  match v with
  | some x => if ok then (setCell sh.1 r c (.num x), sh.2 + 1) else sh
  | none => sh

/-- The write block of one row of `transfer.transfer_week`: under action
`"write"`, the three per-cell guarded writes in planned/actual/timesheet
order (the writability of each cell is its pre-read value's — the three
cells are distinct, so re-reading after the earlier writes of the same row
gives the same answer). -/
def rowWrites (cfg : TransferSettings) (blk : WeekBlock) (tot : Totals)
    (sheet : Sheet) (r : Nat) : Sheet × Nat :=
  let c := blk.startCol
  let pv := sheet.cells r c
  let av := sheet.cells r (c + 2)
  let tv := sheet.cells r (c + 4)
  if actionOf cfg.overwriteFormulas tot pv av tv = "write" then
    writeField (writeField (writeField (sheet, 0)
      (okCell cfg.overwriteFormulas pv) r c tot.planned)
      (okCell cfg.overwriteFormulas av) r (c + 2) tot.actual)
      (okCell cfg.overwriteFormulas tv) r (c + 4) tot.timesheet
  else (sheet, 0)

/-- The body of `for row in rows_to_write` in `transfer.transfer_week`:
formula bookkeeping, action choice, the three guarded cell writes (per-cell:
non-null source value and writable target cell), and the diff row, whose
target values re-read the cells after the writes. -/
def rowStep (cfg : TransferSettings) (blk : WeekBlock) (tot : Totals) (key : String)
    (st : TWState) (r : Nat) : TWState :=
  let c := blk.startCol
  let pv := st.sheet.cells r c
  let av := st.sheet.cells r (c + 2)
  let tv := st.sheet.cells r (c + 4)
  let fp := fieldStat cfg.overwriteFormulas tot.planned pv "planned"
  let fa := fieldStat cfg.overwriteFormulas tot.actual av "actual"
  let ft := fieldStat cfg.overwriteFormulas tot.timesheet tv "timesheet"
  let act := actionOf cfg.overwriteFormulas tot pv av tv
  let wr := rowWrites cfg blk tot st.sheet r
  let diff : DiffRow :=
    { key := key
      srcPlanned := tot.planned
      srcActual := tot.actual
      srcTimesheet := tot.timesheet
      tgtPlanned := wr.1.cells r c
      tgtActual := wr.1.cells r (c + 2)
      tgtTimesheet := wr.1.cells r (c + 4)
      action := act
      reason := joinReasons (fp.1 ++ fa.1 ++ ft.1) }
  { sheet := wr.1
    diffs := st.diffs ++ [diff]
    logs := st.logs
    written := st.written + wr.2
    missing := st.missing
    skippedF := st.skippedF + (fp.2.2 + fa.2.2 + ft.2.2) }

/-- The missing-target-key branch shared by both transfer functions; the
log line appears only in `transfer_week` and is passed in by the caller. -/
def missingDiff (key : String) (tot : Totals) : DiffRow :=
  { key := key
    srcPlanned := tot.planned
    srcActual := tot.actual
    srcTimesheet := tot.timesheet
    tgtPlanned := .blank
    tgtActual := .blank
    tgtTimesheet := .blank
    action := "skip"
    reason := "missing target key" }

/-- The duplicate-target-key log lines of `transfer.transfer_week`. -/
def dupLog (cfg : TransferSettings) (key : String) (rows : List Nat) : List String :=
  if 1 < rows.length ∧ ¬cfg.writeAllDuplicates then
    ["Duplicate target key \x27" ++ key ++ "\x27 - writing to first match"]
  else if 1 < rows.length then
    ["Duplicate target key \x27" ++ key ++ "\x27 - writing to all matches"]
  else []

/-- The body of `for key, totals in source_data.items()` in
`transfer.transfer_week`. -/
def twStep (cfg : TransferSettings) (blk : WeekBlock) (M : List (String × List Nat))
    (st : TWState) (kv : String × Totals) : TWState :=
  match kmLookup M kv.1 with
  | none =>
    { st with diffs := st.diffs ++ [missingDiff kv.1 kv.2]
              logs := st.logs ++ ["Missing target key: " ++ kv.1]
              missing := st.missing + 1 }
  | some rows =>
    if rows.isEmpty then
      { st with diffs := st.diffs ++ [missingDiff kv.1 kv.2]
                logs := st.logs ++ ["Missing target key: " ++ kv.1]
                missing := st.missing + 1 }
    else
      let rtw := if cfg.writeAllDuplicates then rows else rows.take 1
      let st1 := { st with logs := st.logs ++ dupLog cfg kv.1 rows }
      rtw.foldl (rowStep cfg blk kv.2 kv.1) st1

/-- `transfer.transfer_week`: aggregate the source block, index the target,
run the key loop, and return the result record next to the mutated target
sheet. -/
def transferWeek (src tgt : Sheet) (sblk tblk : WeekBlock) (cfg : TransferSettings) :
    TransferResult × Sheet :=
  let srcStart := findDataStartRow src 14
  let tgtStart := findDataStartRow tgt 14
  let sd := aggregateSource src sblk srcStart
  let M := buildKeyMap tgt tgtStart
  let dupTgt := (M.filter (fun p => 1 < p.2.length)).length
  let st := sd.1.foldl (twStep cfg tblk M) ⟨tgt, [], [], 0, 0, 0⟩
  (⟨st.diffs, st.logs, st.written, sd.1.length - st.missing, st.missing, sd.2,
    dupTgt, st.skippedF⟩, st.sheet)

/-- The state threaded through `transfer.analyze_transfer`'s loops: the
function only ever reads target cells, so the sheet field is never
reassigned — carrying it makes "analyze writes nothing" a statable fact
rather than a modelling choice. -/
structure AnState where
  tgt : Sheet
  diffs : List DiffRow
  missing : Nat
  skippedF : Nat

/-- The body of `for row in rows_to_show` in `transfer.analyze_transfer`:
identical bookkeeping to `transfer_week`'s row loop but with no writes, and
the diff's target values are the current (pre-existing) cell values. -/
def aRowStep (cfg : TransferSettings) (blk : WeekBlock) (tot : Totals) (key : String)
    (st : AnState) (r : Nat) : AnState :=
  let c := blk.startCol
  let pv := st.tgt.cells r c
  let av := st.tgt.cells r (c + 2)
  let tv := st.tgt.cells r (c + 4)
  let fp := fieldStat cfg.overwriteFormulas tot.planned pv "planned"
  let fa := fieldStat cfg.overwriteFormulas tot.actual av "actual"
  let ft := fieldStat cfg.overwriteFormulas tot.timesheet tv "timesheet"
  let act := actionOf cfg.overwriteFormulas tot pv av tv
  let diff : DiffRow :=
    { key := key
      srcPlanned := tot.planned
      srcActual := tot.actual
      srcTimesheet := tot.timesheet
      tgtPlanned := pv
      tgtActual := av
      tgtTimesheet := tv
      action := act
      reason := joinReasons (fp.1 ++ fa.1 ++ ft.1) }
  { st with diffs := st.diffs ++ [diff]
            skippedF := st.skippedF + (fp.2.2 + fa.2.2 + ft.2.2) }

/-- The body of `for key, totals in source_data.items()` in
`transfer.analyze_transfer` (no logging in the analyze pass). -/
def aKeyStep (cfg : TransferSettings) (blk : WeekBlock) (M : List (String × List Nat))
    (st : AnState) (kv : String × Totals) : AnState :=
  match kmLookup M kv.1 with
  | none =>
    { st with diffs := st.diffs ++ [missingDiff kv.1 kv.2], missing := st.missing + 1 }
  | some rows =>
    if rows.isEmpty then
      { st with diffs := st.diffs ++ [missingDiff kv.1 kv.2], missing := st.missing + 1 }
    else
      let rts := if cfg.writeAllDuplicates then rows else rows.take 1
      rts.foldl (aRowStep cfg blk kv.2 kv.1) st

/-- `transfer.analyze_transfer` in state-passing form: the result record
(with `written_cells = 0` and empty logs, exactly as in the source) next to
the source and target sheets as the call leaves them. -/
def analyzeTransfer (src tgt : Sheet) (sblk tblk : WeekBlock) (cfg : TransferSettings) :
    TransferResult × Sheet × Sheet :=
  let srcStart := findDataStartRow src 14
  let tgtStart := findDataStartRow tgt 14
  let sd := aggregateSource src sblk srcStart
  let M := buildKeyMap tgt tgtStart
  let dupTgt := (M.filter (fun p => 1 < p.2.length)).length
  let st := sd.1.foldl (aKeyStep cfg tblk M) ⟨tgt, [], 0, 0⟩
  (⟨st.diffs, [], 0, sd.1.length - st.missing, st.missing, sd.2, dupTgt, st.skippedF⟩,
   src, st.tgt)

/-- Modelled from the spec: the `WeekBlock` variant used by
`actions/report_to_cost.py` exposes `col_planned_qty`, `col_actual_qty` and
`col_timesheet` attributes, but the module defining that variant is not in
the repository snapshot (`excel_layout.py` here has only `start_col`/
`end_col`).  Spec §3: "planned qty = start_col+0, actual qty = start_col+2,
timesheet = start_col+4". -/
def rcColPlanned (wk : WeekBlock) : Nat := wk.startCol

/-- Modelled from the spec: `col_actual_qty = start_col + 2` (see
`rcColPlanned`). -/
def rcColActual (wk : WeekBlock) : Nat := wk.startCol + 2

/-- Modelled from the spec: `col_timesheet = start_col + 4` (see
`rcColPlanned`). -/
def rcColTimesheet (wk : WeekBlock) : Nat := wk.startCol + 4

/-- `report_to_cost.TransferDiff` (keys are `(section, material)` pairs). -/
structure RCDiff where
  key : String × String
  weekLabel : String
  srcPlanned : Option ℚ
  srcActual : Option ℚ
  srcTimesheet : Option ℚ
  tgtPlanned : CellVal
  tgtActual : CellVal
  tgtTimesheet : CellVal
  action : String
  reason : String
  rowIdxTgt : Nat
deriving DecidableEq

/-- `add_opt` inside `ReportToCostAction._aggregate_source_data`:
`None` only when both operands are `None`, else the sum with `None` as zero
(Python's `or 0.0` coincides with `Option.getD 0` on numbers). -/
def addOpt (v1 v2 : Option ℚ) : Option ℚ :=
  if v1 = none ∧ v2 = none then none else some (v1.getD 0 + v2.getD 0)

/-- The aggregated `(planned, actual, timesheet)` triple of
`ReportToCostAction`. -/
abbrev RCTotals := Option ℚ × Option ℚ × Option ℚ

/-- The dictionary update of `ReportToCostAction._aggregate_source_data`:
combine with `add_opt` on an existing key, else insert at the back. -/
def rcUpsert (m : List ((String × String) × RCTotals)) (key : String × String)
    (p a t : Option ℚ) : List ((String × String) × RCTotals) :=
  match m with
  | [] => [(key, (p, a, t))]
  | (k', v') :: rest =>
    if k' = key then (k', (addOpt v'.1 p, addOpt v'.2.1 a, addOpt v'.2.2 t)) :: rest
    else (k', v') :: rcUpsert rest key p a t

/-- `ReportToCostAction._get_check_cols`: `list(range(4, 15))`. -/
def rcBaseCheckCols : List Nat := List.range' 4 11

/-- The watched columns for source parsing:
`list(set(check_cols + [col_planned_qty, col_actual_qty]))`.  Python's
`set()` deduplicates and reorders; the parser consults the list only through
an all-columns-non-numeric test, which depends on membership alone, so the
plain concatenation is an equivalent rendering. -/
def rcCheckCols (wk : WeekBlock) : List Nat :=
  rcBaseCheckCols ++ [rcColPlanned wk, rcColActual wk]

/-- `row.values[alias]` (the alias is always present because the same
mapping defined the values). -/
def rcValueOf (row : ParsedRow) (al : String) : Option ℚ :=
  ((row.values.find? (fun p => p.1 = al)).map (fun p => p.2)).getD none

/-- `ReportToCostAction._aggregate_source_data` for one week block. -/
def rcAggregate (source : Sheet) (wk : WeekBlock) : List ((String × String) × RCTotals) :=
  let valMap := [("planned", rcColPlanned wk), ("actual", rcColActual wk),
    ("timesheet", rcColTimesheet wk)]
  let rows := sectionParse source 3 (findDataStartRow source 14) (rcCheckCols wk)
    valMap true
  rows.foldl
    (fun data row =>
      rcUpsert data (row.sect, row.key) (rcValueOf row "planned")
        (rcValueOf row "actual") (rcValueOf row "timesheet"))
    []

/-- `ReportToCostAction._build_target_index`. -/
def rcTargetIndex (target : Sheet) : List ((String × String) × List Nat) :=
  let rows := sectionParse target 3 (findDataStartRow target 14) rcBaseCheckCols [] true
  rows.foldl (fun idx row => kmInsert idx (row.sect, row.key) row.rowIdx) []

/-- The formula test of `ReportToCostAction.analyze`:
`any(str(c.value).startswith('=') for c in cells if c.value)`. -/
def rcHasFormula (vals : List CellVal) : Bool :=
  vals.any (fun v => pyTruthy v && startsWithEq (pyStr v))

/-- The body of `for r in target_rows` in `ReportToCostAction.analyze`:
read the three target cells, decide Write/Skip by the row-wise formula
check, and suppress the diff entirely when all three aggregated source
values are null (`continue` before the append). -/
def rcRowDiff (target : Sheet) (twk : WeekBlock) (ovf : Bool) (weekLabel : String)
    (kv : (String × String) × RCTotals) (r : Nat) : Option RCDiff :=
  let tp := target.cells r (rcColPlanned twk)
  let ta := target.cells r (rcColActual twk)
  let tt := target.cells r (rcColTimesheet twk)
  let hasFormula := rcHasFormula [tp, ta, tt]
  let act := if hasFormula && !ovf then "Skip" else "Write"
  let reason := if hasFormula && !ovf then "Target formula protected" else "Update"
  if kv.2.1 = none ∧ kv.2.2.1 = none ∧ kv.2.2.2 = none then none
  else some ⟨kv.1, weekLabel, kv.2.1, kv.2.2.1, kv.2.2.2, tp, ta, tt, act, reason, r⟩

/-- The per-source-key part of `ReportToCostAction.analyze`: keys missing
from the target index are skipped silently, the matched rows (only the
first when `write_first_match_only`) each contribute at most one diff. -/
def rcKeyDiffs (target : Sheet) (tgtIndex : List ((String × String) × List Nat))
    (twk : WeekBlock) (ovf wfmo : Bool) (weekLabel : String)
    (kv : (String × String) × RCTotals) : List RCDiff :=
  match kmLookup tgtIndex kv.1 with
  | none => []
  | some rows =>
    let rows' := if wfmo then rows.take 1 else rows
    rows'.filterMap (rcRowDiff target twk ovf weekLabel kv)

/-- The per-week-pair part of `ReportToCostAction.analyze`. -/
def rcPairDiffs (source target : Sheet) (tgtIndex : List ((String × String) × List Nat))
    (ovf wfmo : Bool) (pr : WeekBlock × WeekBlock) : List RCDiff :=
  ((rcAggregate source pr.1).map
    (fun kv => rcKeyDiffs target tgtIndex pr.2 ovf wfmo pr.1.label kv)).flatten

/-- `ReportToCostAction.analyze`: one target index, then all week pairs in
order, accumulating `all_diffs`. -/
def rcAnalyze (source target : Sheet) (pairs : List (WeekBlock × WeekBlock))
    (ovf wfmo : Bool) : List RCDiff :=
  let tgtIndex := rcTargetIndex target
  (pairs.map (rcPairDiffs source target tgtIndex ovf wfmo)).flatten

/-- The null-sum rule exactly as the specification words it ("summing two
nulls yields null, summing a null and a value yields the value, summing two
values yields their sum"), stated independently of the source so the
aggregation code can be compared against it. -/
def specNullSum (a b : Option ℚ) : Option ℚ :=
  match a, b with
  | none, none => none
  | some x, none => some x
  | none, some y => some y
  | some x, some y => some (x + y)

/-- Fixture week block at columns 4–8 (planned 4, actual 6, timesheet 8). -/
def blkA : WeekBlock := ⟨"WK 1", 4, 8⟩

/-- Fixture sheet for the aggregation claim: one key in rows 14 and 15 of
column C, the first row carrying `v1` and the second `v2` in all three
transferable columns of `blkA`. -/
def twoRowSheet (k : String) (v1 v2 : CellVal) : Sheet :=
  { maxRow := 15, maxCol := 10, merged := [],
    cells := fun r c =>
      if (r = 14 ∨ r = 15) ∧ c = 3 then .str k
      else if r = 14 ∧ (c = 4 ∨ c = 6 ∨ c = 8) then v1
      else if r = 15 ∧ (c = 4 ∨ c = 6 ∨ c = 8) then v2
      else .blank }

/-- Fixture source sheet for the formula-protection claim: key "Steel" at
row 14 with planned 100, actual 50, timesheet 10 in `blkA`. -/
def shFPsrc : Sheet :=
  { maxRow := 14, maxCol := 10, merged := [],
    cells := fun r c =>
      if r = 14 ∧ c = 3 then .str "Steel"
      else if r = 14 ∧ c = 4 then .num 100
      else if r = 14 ∧ c = 6 then .num 50
      else if r = 14 ∧ c = 8 then .num 10
      else .blank }

/-- Fixture target sheet for the formula-protection claim: matching key
"steel" at row 14, a formula in the planned cell, blanks elsewhere. -/
def shFPtgt : Sheet :=
  { maxRow := 14, maxCol := 10, merged := [],
    cells := fun r c =>
      if r = 14 ∧ c = 3 then .str "steel"
      else if r = 14 ∧ c = 4 then .str "=SUM(A1)"
      else .blank }

/-- The aggregated totals of `shFPsrc` under `blkA`. -/
def totFP : Totals := ⟨some 100, some 50, some 10⟩

/-- Keep-first, protect-formulas settings. -/
def cfgFF : TransferSettings := ⟨false, false⟩

/-- Fixture source sheet with a matched key whose three source cells are all
blank (the week block columns of `blkA` are empty at row 14). -/
def shNullSrc : Sheet :=
  { maxRow := 14, maxCol := 10, merged := [],
    cells := fun r c => if r = 14 ∧ c = 3 then .str "steel" else .blank }

/-- Fixture target sheet holding the same key "steel" at row 14. -/
def shNullTgt : Sheet :=
  { maxRow := 14, maxCol := 10, merged := [],
    cells := fun r c => if r = 14 ∧ c = 3 then .str "steel" else .blank }

/-- Fixture source sheet for the `ReportToCostAction` suppression claim:
key "steel" at row 14 with planned 100 in `blkA`'s planned column, nothing
else. -/
def shRCsrc : Sheet :=
  { maxRow := 14, maxCol := 14, merged := [],
    cells := fun r c =>
      if r = 14 ∧ c = 3 then .str "steel"
      else if r = 14 ∧ c = 4 then .num 100
      else .blank }

/-- Fixture target sheet for the `ReportToCostAction` suppression claim:
key "steel" at row 14 with the numeric 7 in the planned column (so the
section parser classifies the row as data). -/
def shRCtgt : Sheet :=
  { maxRow := 14, maxCol := 14, merged := [],
    cells := fun r c =>
      if r = 14 ∧ c = 3 then .str "steel"
      else if r = 14 ∧ c = 4 then .num 7
      else .blank }

/-- The one diff `ReportToCostAction.analyze` produces on `shRCsrc`/`shRCtgt`
with the week pair `(blkA, blkA)`. -/
def dRC : RCDiff :=
  ⟨("__NO_SECTION__", "steel"), "WK 1", some 100, none, none, .num 7, .blank, .blank,
   "Write", "Update", 14⟩

/-- Fixture sheet for the section-attribution claim (rows from 1): header
"Section Alpha", two data rows, header "Section Beta", one data row; the
watched data column is D (4). -/
def shSec : Sheet :=
  { maxRow := 5, maxCol := 6, merged := [],
    cells := fun r c =>
      if r = 1 ∧ c = 3 then .str "Section Alpha"
      else if r = 2 ∧ c = 3 then .str "Material 1"
      else if r = 2 ∧ c = 4 then .num 100
      else if r = 3 ∧ c = 3 then .str "Material 2"
      else if r = 3 ∧ c = 4 then .num 200
      else if r = 4 ∧ c = 3 then .str "Section Beta"
      else if r = 5 ∧ c = 3 then .str "Material 3"
      else if r = 5 ∧ c = 4 then .num 300
      else .blank }

/-- Fixture sheet whose first keyed row is a data row, preceding any section
header. -/
def shSecB : Sheet :=
  { maxRow := 3, maxCol := 6, merged := [],
    cells := fun r c =>
      if r = 1 ∧ c = 3 then .str "Material 0"
      else if r = 1 ∧ c = 4 then .num 5
      else if r = 2 ∧ c = 3 then .str "Section Beta"
      else if r = 3 ∧ c = 3 then .str "Material 9"
      else if r = 3 ∧ c = 4 then .num 1
      else .blank }

/-- The first emitted row of `shSec`'s parse. -/
def prSec : ParsedRow := ⟨2, "Section Alpha", "Material 1", "material 1", [("val", some 100)]⟩

/-- Fixture sheet for the start-row scan: column C is blank on every row
except 100 (far beyond any 50-row window below the default start row 14). -/
def shScan : Sheet :=
  { maxRow := 200, maxCol := 5, merged := [],
    cells := fun r c => if r = 100 ∧ c = 3 then .str "Steel beams" else .blank }

/-- Fixture sheet with two valid week blocks whose merged ranges are
enumerated right-block first (merged ranges carry no ordering guarantee). -/
def shWB : Sheet :=
  { maxRow := 13, maxCol := 20,
    merged := [⟨10, 10, 10, 14⟩, ⟨10, 10, 4, 8⟩],
    cells := fun r c =>
      if r = 10 ∧ c = 10 then .str "WK 2"
      else if r = 10 ∧ c = 4 then .str "WK 1"
      else if r = 13 ∧ (c = 4 ∨ c = 10) then .str "Qty"
      else if r = 13 ∧ (c = 5 ∨ c = 11) then .str "Man Hour"
      else if r = 13 ∧ (c = 6 ∨ c = 12) then .str "Qty"
      else if r = 13 ∧ (c = 7 ∨ c = 13) then .str "Man Hour"
      else if r = 13 ∧ (c = 8 ∨ c = 14) then .str "Timesheet"
      else .blank }

/-- `shWB` without merged ranges, so that detection takes the fallback
linear scan. -/
def shWBfb : Sheet :=
  { shWB with merged := [] }

example : findDataStartRow shFPsrc 14 = 14 := by decide
example : (aggregateSource shFPsrc blkA 14).1 = [("steel", totFP)] := by decide
example : (buildKeyMap shFPtgt 14) = [("steel", [14])] := by decide

lemma setCell_same (ws : Sheet) (r c : Nat) (v : CellVal) :
    (setCell ws r c v).cells r c = v := by
  simp [setCell]

lemma setCell_other (ws : Sheet) (r c : Nat) (v : CellVal) (r' c' : Nat)
    (h : ¬(r' = r ∧ c' = c)) : (setCell ws r c v).cells r' c' = ws.cells r' c' := by
  simp only [setCell, if_neg h]

lemma aRowStep_tgt (cfg : TransferSettings) (blk : WeekBlock) (tot : Totals)
    (key : String) (st : AnState) (r : Nat) :
    (aRowStep cfg blk tot key st r).tgt = st.tgt := rfl

lemma foldl_aRowStep_tgt (cfg : TransferSettings) (blk : WeekBlock) (tot : Totals)
    (key : String) : ∀ (l : List Nat) (st : AnState),
    (l.foldl (aRowStep cfg blk tot key) st).tgt = st.tgt := by
  intro l
  induction l with
  | nil => intro st; rfl
  | cons r rest ih => intro st; rw [List.foldl_cons, ih, aRowStep_tgt]

lemma aKeyStep_tgt (cfg : TransferSettings) (blk : WeekBlock)
    (M : List (String × List Nat)) (st : AnState) (kv : String × Totals) :
    (aKeyStep cfg blk M st kv).tgt = st.tgt := by
  unfold aKeyStep
  split
  · rfl
  · split
    · rfl
    · exact foldl_aRowStep_tgt ..

lemma foldl_aKeyStep_tgt (cfg : TransferSettings) (blk : WeekBlock)
    (M : List (String × List Nat)) : ∀ (l : List (String × Totals)) (st : AnState),
    (l.foldl (aKeyStep cfg blk M) st).tgt = st.tgt := by
  intro l
  induction l with
  | nil => intro st; rfl
  | cons kv rest ih => intro st; rw [List.foldl_cons, ih, aKeyStep_tgt]

/-- C2: analyze is pure and idempotent — for every source sheet, target
sheet, week-block pair and settings, `analyze_transfer` leaves every cell of
both sheets exactly as it found them, and running it a second time on the
sheets it returns produces the identical diff list. -/
theorem analyzeTransfer_pure_and_idempotent (src tgt : Sheet) (sblk tblk : WeekBlock)
    (cfg : TransferSettings) :
    (analyzeTransfer src tgt sblk tblk cfg).2.1 = src ∧
    (analyzeTransfer src tgt sblk tblk cfg).2.2 = tgt ∧
    (analyzeTransfer (analyzeTransfer src tgt sblk tblk cfg).2.1
        (analyzeTransfer src tgt sblk tblk cfg).2.2 sblk tblk cfg).1.diffRows =
      (analyzeTransfer src tgt sblk tblk cfg).1.diffRows := by
  have h2 : (analyzeTransfer src tgt sblk tblk cfg).2.2 = tgt := by
    unfold analyzeTransfer
    exact foldl_aKeyStep_tgt ..
  refine ⟨rfl, h2, ?_⟩
  rw [h2]
  rfl

/-- C4: the claim that `"Man/Hour"`, `"man hour"` and `"MAN-HOUR"` all
normalize to one key is false for both cited normalizers at the concrete
pair `"Man/Hour"` / `"man hour"`: `parsers.normalize_string` deletes the
slash (giving `"manhour"` vs `"man hour"`), and the cross-sheet matching
normalizer `excel_layout.normalize_text` keeps it (giving `"man/hour"`). -/
theorem key_normalization_counterexample :
    normalizeString "Man/Hour" ≠ normalizeString "man hour" ∧
    normalizeText (.str "Man/Hour") ≠ normalizeText (.str "man hour") := by
  decide

/-- C4 (amended): `normalize_string` identifies strings differing only in
casing and punctuation — `"Man/Hour"` and `"MAN-HOUR"` both become
`"manhour"`, and `"q-ty"` equals `"Qty"` (both `"qty"`) — but `"man hour"`
stays `"man hour"`, distinct from `"manhour"`, because punctuation is
deleted rather than replaced by a space; `normalize_text`, the normalizer
`_build_key_map` matches with, keeps punctuation and identifies none of the
three. -/
theorem key_normalization_amended :
    normalizeString "Man/Hour" = "manhour" ∧
    normalizeString "MAN-HOUR" = "manhour" ∧
    normalizeString "q-ty" = normalizeString "Qty" ∧
    normalizeString "man hour" = "man hour" ∧
    normalizeText (.str "Man/Hour") = "man/hour" ∧
    normalizeText (.str "MAN-HOUR") ≠ normalizeText (.str "Man/Hour") ∧
    normalizeText (.str "q-ty") ≠ normalizeText (.str "Qty") := by
  decide

/-- C5: the claim that a string containing both `.` and `,` has the `,`
dropped as a thousands separator is false for `parsers.parse_number` at
`"1,234.5"`: that variant unconditionally rewrites `,` to `.`, producing the
unparseable `"1.234.5"` and hence null, while `excel_layout.parse_number`
returns 1234.5 as claimed. -/
theorem parse_number_counterexample :
    parseNumberP (.str "1,234.5") = none ∧
    parseNumberL (.str "1,234.5") = some (2469 / 2) := by
  decide

/-- C5 (amended): both `parse_number` variants are total, never raise, and
agree on the specification's table — `"1,5"`→1.5, `"1 234,5"`→1234.5,
2→2.0, `""`→null, `"abc"`→null, `None`→null — and on the comma-as-decimal
rule; the both-separators disambiguation (drop `,` as thousands separator)
is implemented only by `excel_layout.parse_number`, while
`parsers.parse_number` rewrites every `,` to `.` and yields null on strings
containing both separators. -/
theorem parse_number_amended :
    parseNumberL (.str "1,5") = some (3 / 2) ∧
    parseNumberL (.str "1 234,5") = some (2469 / 2) ∧
    parseNumberL (.num 2) = some 2 ∧
    parseNumberL (.str "") = none ∧
    parseNumberL (.str "abc") = none ∧
    parseNumberL .blank = none ∧
    parseNumberL (.str "1,234.5") = some (2469 / 2) ∧
    parseNumberP (.str "1,5") = some (3 / 2) ∧
    parseNumberP (.str "1 234,5") = some (2469 / 2) ∧
    parseNumberP (.num 2) = some 2 ∧
    parseNumberP (.str "") = none ∧
    parseNumberP (.str "abc") = none ∧
    parseNumberP .blank = none ∧
    parseNumberP (.str "1,234.5") = none := by
  decide

lemma fdsrGo_eq_find? (ws : Sheet) : ∀ l : List Nat,
    fdsrGo ws l = l.find? (fdsrQual ws) := by
  intro l
  induction l with
  | nil => rfl
  | cons r rest ih =>
    show fdsrGo ws (r :: rest) = _
    unfold fdsrGo
    cases hv : ws.cells r 3 with
    | blank =>
      have hq : fdsrQual ws r = false := by
        simp [fdsrQual, hv, normalizeText]
      rw [List.find?_cons, hq, ih]
    | num q =>
      rw [List.find?_cons]
      cases hq : fdsrQual ws r
      · rw [if_neg (by simp [hq]), ih]
      · rw [if_pos (by simp [hq])]
    | str s =>
      rw [List.find?_cons]
      cases hq : fdsrQual ws r
      · rw [if_neg (by simp [hq]), ih]
      · rw [if_pos (by simp [hq])]

/-- C8: the claimed 50-row lookahead cap is refuted at a concrete sheet —
every key cell in the window rows 14–64 below the default start row 14 is
blank, so a capped scan would return the default 14, yet
`find_data_start_row` scans on and returns row 100. -/
theorem find_data_start_row_counterexample :
    (∀ r ∈ rowRange 14 64, shScan.cells r 3 = CellVal.blank) ∧
    findDataStartRow shScan 14 = 100 := by
  decide

/-- C8 (amended): `find_data_start_row` returns the first row between the
default start row and the sheet's `max_row` whose key cell is non-blank and
normalizes differently from the literal header label
`"description of work"`; if no such row exists in that whole range it
returns the default unchanged.  It never raises, but the scan is bounded
only by `max_row` — there is no 50-row cap. -/
theorem find_data_start_row_amended (ws : Sheet) (minRow : Nat) :
    findDataStartRow ws minRow =
      ((rowRange minRow ws.maxRow).find? (fdsrQual ws)).getD minRow := by
  unfold findDataStartRow
  rw [fdsrGo_eq_find?]

lemma fallbackBlockAt_startCol (ws : Sheet) (sc : Nat) (b : WeekBlock)
    (h : fallbackBlockAt ws sc = some b) : b.startCol = sc := by
  unfold fallbackBlockAt at h
  dsimp only at h
  split at h
  · exact absurd h (by simp)
  · split at h
    · exact absurd h (by simp)
    · split at h
      · cases h; rfl
      · exact absurd h (by simp)

lemma pairwise_lt_fallback (ws : Sheet) : ∀ l : List Nat, l.Pairwise (· < ·) →
    ((l.filterMap (fallbackBlockAt ws)).map (fun b => b.startCol)).Pairwise (· < ·) := by
  intro l
  induction l with
  | nil => intro _; simp
  | cons a t ih =>
    intro hl
    obtain ⟨ha, ht⟩ := List.pairwise_cons.mp hl
    rw [List.filterMap_cons]
    cases hfa : fallbackBlockAt ws a with
    | none => exact ih ht
    | some b =>
      rw [List.map_cons]
      refine List.pairwise_cons.mpr ⟨?_, ih ht⟩
      intro y hy
      simp only [List.mem_map, List.mem_filterMap] at hy
      obtain ⟨b', ⟨c, hc, hfc⟩, rfl⟩ := hy
      rw [fallbackBlockAt_startCol ws a b hfa, fallbackBlockAt_startCol ws c b' hfc]
      exact ha c hc

/-- C9: ordering by ascending start column fails in the merged-cell path at
a concrete sheet whose two valid week blocks appear right-block first in the
merged-range list: detection returns start columns `[10, 4]`. -/
theorem detect_week_blocks_counterexample :
    (detectWeekBlocks shWB).map (fun b => b.startCol) = [10, 4] ∧
    ¬ ((detectWeekBlocks shWB).map (fun b => b.startCol)).Pairwise (· ≤ ·) := by
  have h : (detectWeekBlocks shWB).map (fun b => b.startCol) = [10, 4] := by decide
  refine ⟨h, ?_⟩
  rw [h]
  intro hp
  have := (List.pairwise_cons.mp hp).1 4 (by simp)
  omega

/-- C9 (amended): the linear fallback scan returns week blocks in strictly
ascending start-column order (shown in general, and concretely on the
merged-free fixture); the merged-cell path instead emits blocks in the
order the merged ranges are enumerated, which need not be ascending. -/
theorem detect_week_blocks_amended :
    (∀ ws : Sheet, mergedWeekBlocks ws = [] →
      ((detectWeekBlocks ws).map (fun b => b.startCol)).Pairwise (· < ·)) ∧
    (detectWeekBlocks shWBfb).map (fun b => b.startCol) = [4, 10] := by
  constructor
  · intro ws h
    unfold detectWeekBlocks
    rw [h]
    simp only [List.isEmpty_nil, if_pos]
    exact pairwise_lt_fallback ws _ (List.pairwise_lt_range' ..)
  · decide

/-- C9 (witness for the amended theorem): on the merged-free fixture the
detected blocks are strictly ascending by start column. -/
theorem detect_week_blocks_amended_witness :
    ((detectWeekBlocks shWBfb).map (fun b => b.startCol)).Pairwise (· < ·) :=
  detect_week_blocks_amended.1 shWBfb (by decide)

lemma parseGo_empty_watched (sheet : Sheet) (kci : Nat) (vm : List (String × Nat)) :
    ∀ (l : List Nat) (cur : String), parseGo sheet kci [] vm true cur l = [] := by
  intro l
  induction l with
  | nil => intro cur; rfl
  | cons r rest ih =>
    intro cur
    unfold parseGo
    dsimp only
    split
    · exact ih cur
    · rw [if_pos (by simp)]
      exact ih _

/-- C10: with `detect_sections=true` and an empty watched-columns list,
every keyed row is vacuously classified as a section header, so
`SectionParser.parse` returns the empty sequence on every sheet, key column,
start row and value mapping. -/
theorem section_parser_empty_watched (sheet : Sheet) (keyColIdx startRow : Nat)
    (valueMapping : List (String × Nat)) :
    sectionParse sheet keyColIdx startRow [] valueMapping true = [] := by
  unfold sectionParse
  exact parseGo_empty_watched ..

lemma accAdd_none_pair (a b : Option ℚ) :
    accAdd (accAdd none a) b = specNullSum a b := by
  cases a <;> cases b <;> simp [accAdd, specNullSum]

/-- C3: the null-sum identity of `_aggregate_source` — on a sheet holding
one key in two rows whose three week-block cells carry `v1` and `v2`, the
aggregate of every field is exactly the specification's null-sum combine of
`parse_number v1` and `parse_number v2`: null+null→null, null+x→x,
x+y→x+y. -/
theorem aggregateSource_null_sum (k : String) (v1 v2 : CellVal)
    (hk : normalizeText (.str k) ≠ "") :
    (aggregateSource (twoRowSheet k v1 v2) blkA 14).1 =
      [(normalizeText (.str k),
        ⟨specNullSum (parseNumberL v1) (parseNumberL v2),
         specNullSum (parseNumberL v1) (parseNumberL v2),
         specNullSum (parseNumberL v1) (parseNumberL v2)⟩)] := by
  have e1 : buildKeyMap (twoRowSheet k v1 v2) 14 =
      [(normalizeText (.str k), [14, 15])] := by
    show bkmStep (twoRowSheet k v1 v2) (bkmStep (twoRowSheet k v1 v2) [] 14) 15 = _
    unfold bkmStep
    dsimp only
    rw [show (twoRowSheet k v1 v2).cells 14 3 = .str k from rfl,
      show (twoRowSheet k v1 v2).cells 15 3 = .str k from rfl,
      if_neg hk, if_neg hk]
    simp [kmInsert]
  unfold aggregateSource
  dsimp only
  rw [e1]
  show [(normalizeText (.str k),
    Totals.mk (accAdd (accAdd none (parseNumberL v1)) (parseNumberL v2))
      (accAdd (accAdd none (parseNumberL v1)) (parseNumberL v2))
      (accAdd (accAdd none (parseNumberL v1)) (parseNumberL v2)))] = _
  rw [accAdd_none_pair]

/-- C3 (witness): rows with planned 10 and blank aggregate to 10 in every
field; two all-blank rows aggregate to null. -/
theorem aggregateSource_null_sum_witness :
    (aggregateSource (twoRowSheet "Item A" (.num 10) .blank) blkA 14).1 =
      [("item a", ⟨some 10, some 10, some 10⟩)] ∧
    (aggregateSource (twoRowSheet "Item B" .blank .blank) blkA 14).1 =
      [("item b", ⟨none, none, none⟩)] :=
  ⟨aggregateSource_null_sum "Item A" (.num 10) .blank (by decide),
   aggregateSource_null_sum "Item B" .blank .blank (by decide)⟩

lemma parseGo_emits_data (sheet : Sheet) (kci : Nat) (cols : List Nat)
    (vm : List (String × Nat)) : ∀ (l : List Nat) (cur : String) (pr : ParsedRow),
    pr ∈ parseGo sheet kci cols vm true cur l →
    ∃ c ∈ cols, (parseNumberP (sheet.cells pr.rowIdx c)).isSome = true := by
  intro l
  induction l with
  | nil =>
    intro cur pr h
    simp [parseGo] at h
  | cons r rest ih =>
    intro cur pr h
    unfold parseGo at h
    dsimp only at h
    by_cases h1 : normalizeString (rowRawKey sheet kci r) = ""
    · rw [if_pos h1] at h
      exact ih _ _ h
    · rw [if_neg h1] at h
      by_cases h2 : (true && cols.all fun c => (parseNumberP (sheet.cells r c)).isNone) = true
      · rw [if_pos h2] at h
        exact ih _ _ h
      · rw [if_neg h2] at h
        rcases List.mem_cons.mp h with h3 | h3
        · subst h3
          simp only [Bool.true_and, List.all_eq_true, not_forall] at h2
          push_neg at h2
          obtain ⟨c, hc, hnc⟩ := h2
          refine ⟨c, hc, ?_⟩
          simpa [Option.isSome_iff_ne_none, Option.isNone_iff_eq_none] using hnc
        · exact ih _ _ h3

lemma parseGo_data_row_emitted (sheet : Sheet) (kci : Nat) (cols : List Nat)
    (vm : List (String × Nat)) : ∀ (l : List Nat) (cur : String) (r : Nat),
    r ∈ l → normalizeString (rowRawKey sheet kci r) ≠ "" →
    (∃ c ∈ cols, (parseNumberP (sheet.cells r c)).isSome = true) →
    ∃ pr ∈ parseGo sheet kci cols vm true cur l, pr.rowIdx = r := by
  intro l
  induction l with
  | nil =>
    intro cur r hr
    simp at hr
  | cons r0 rest ih =>
    intro cur r hr hkey hnum
    unfold parseGo
    dsimp only
    rcases List.mem_cons.mp hr with rfl | hr'
    · rw [if_neg hkey]
      have h2 : ¬((true && cols.all fun c => (parseNumberP (sheet.cells r c)).isNone) = true) := by
        obtain ⟨c, hc, hsome⟩ := hnum
        simp only [Bool.true_and, List.all_eq_true]
        intro hall
        have := hall c hc
        rw [Option.isNone_iff_eq_none] at this
        rw [Option.isSome_iff_ne_none] at hsome
        exact absurd this hsome
      rw [if_neg h2]
      exact ⟨_, List.mem_cons_self .., rfl⟩
    · by_cases h1 : normalizeString (rowRawKey sheet kci r0) = ""
      · rw [if_pos h1]
        exact ih _ _ hr' hkey hnum
      · rw [if_neg h1]
        by_cases h2 : (true && cols.all fun c => (parseNumberP (sheet.cells r0 c)).isNone) = true
        · rw [if_pos h2]
          exact ih _ _ hr' hkey hnum
        · rw [if_neg h2]
          obtain ⟨pr, hpr, hidx⟩ := ih cur _ hr' hkey hnum
          exact ⟨pr, List.mem_cons_of_mem _ hpr, hidx⟩

/-- C7: section classification of `SectionParser.parse` with
`detect_sections=true`.  (1) Every emitted row has a parseable number in
some watched column (headers — keyed rows with none — are never emitted);
(2) every keyed row with a parseable number in a watched column is emitted;
(3) on the fixture "Section Alpha" / two data rows / "Section Beta" / one
data row, the three emitted rows carry sections Alpha, Alpha, Beta in
order, with the headers' whitespace-collapsed raw keys as labels; (4) data
rows preceding any header carry the reserved `"__NO_SECTION__"` label. -/
theorem section_parser_classification :
    (∀ (sheet : Sheet) (kci startRow : Nat) (cols : List Nat)
        (vm : List (String × Nat)) (pr : ParsedRow),
      pr ∈ sectionParse sheet kci startRow cols vm true →
      ∃ c ∈ cols, (parseNumberP (sheet.cells pr.rowIdx c)).isSome = true) ∧
    (∀ (sheet : Sheet) (kci startRow : Nat) (cols : List Nat)
        (vm : List (String × Nat)) (r : Nat),
      r ∈ rowRange startRow sheet.maxRow →
      normalizeString (rowRawKey sheet kci r) ≠ "" →
      (∃ c ∈ cols, (parseNumberP (sheet.cells r c)).isSome = true) →
      ∃ pr ∈ sectionParse sheet kci startRow cols vm true, pr.rowIdx = r) ∧
    sectionParse shSec 3 1 [4] [("val", 4)] true =
      [⟨2, "Section Alpha", "Material 1", "material 1", [("val", some 100)]⟩,
       ⟨3, "Section Alpha", "Material 2", "material 2", [("val", some 200)]⟩,
       ⟨5, "Section Beta", "Material 3", "material 3", [("val", some 300)]⟩] ∧
    (sectionParse shSecB 3 1 [4] [] true).map (fun p => p.sect) =
      ["__NO_SECTION__", "Section Beta"] := by
  refine ⟨?_, ?_, by decide, by decide⟩
  · intro sheet kci startRow cols vm pr h
    exact parseGo_emits_data sheet kci cols vm _ _ pr h
  · intro sheet kci startRow cols vm r hr hkey hnum
    exact parseGo_data_row_emitted sheet kci cols vm _ _ r hr hkey hnum

/-- C7 (witness): the first fixture row emitted by the parse indeed has a
number in the watched column 4, by the classification theorem applied at
the concrete sheet. -/
theorem section_parser_classification_witness :
    ∃ c ∈ [4], (parseNumberP (shSec.cells prSec.rowIdx c)).isSome = true :=
  section_parser_classification.1 shSec 3 1 [4] [("val", 4)] prSec (by decide)

/-- C6: the claim that an all-null matched key produces no diff at all is
refuted on `transfer.analyze_transfer` (cited by the claim as one of its
sources): with key "steel" matched between source and target and all three
aggregated source values null, analyze emits exactly one diff for it — a
Skip row with empty reason — rather than none. -/
theorem all_null_key_counterexample :
    (aggregateSource shNullSrc blkA (findDataStartRow shNullSrc 14)).1 =
      [("steel", ⟨none, none, none⟩)] ∧
    buildKeyMap shNullTgt (findDataStartRow shNullTgt 14) = [("steel", [14])] ∧
    (analyzeTransfer shNullSrc shNullTgt blkA blkA cfgFF).1.diffRows =
      [⟨"steel", none, none, none, .blank, .blank, .blank, "skip", ""⟩] := by
  decide

lemma rcRowDiff_some_src (target : Sheet) (twk : WeekBlock) (ovf : Bool)
    (weekLabel : String) (kv : (String × String) × RCTotals) (r : Nat) (d : RCDiff)
    (h : rcRowDiff target twk ovf weekLabel kv r = some d) :
    ¬(d.srcPlanned = none ∧ d.srcActual = none ∧ d.srcTimesheet = none) := by
  unfold rcRowDiff at h
  dsimp only at h
  split at h
  · exact absurd h (by simp)
  · rename_i hnull
    cases h
    simpa using hnull

/-- C6 (amended): in the `ReportToCostAction` week-block variant the
suppression does hold — every diff its analyze emits carries at least one
non-null aggregated source value, because an all-null key is skipped with
`continue` before the append; `transfer.analyze_transfer`, by contrast,
records a Skip diff for such a key (see the counterexample). -/
theorem rc_analyze_suppresses_all_null (source target : Sheet)
    (pairs : List (WeekBlock × WeekBlock)) (ovf wfmo : Bool) (d : RCDiff)
    (hd : d ∈ rcAnalyze source target pairs ovf wfmo) :
    ¬(d.srcPlanned = none ∧ d.srcActual = none ∧ d.srcTimesheet = none) := by
  unfold rcAnalyze at hd
  dsimp only at hd
  simp only [List.mem_flatten, List.mem_map] at hd
  obtain ⟨_, ⟨pr, _, rfl⟩, hd⟩ := hd
  unfold rcPairDiffs at hd
  simp only [List.mem_flatten, List.mem_map] at hd
  obtain ⟨_, ⟨kv, _, rfl⟩, hd⟩ := hd
  unfold rcKeyDiffs at hd
  split at hd
  · simp at hd
  · dsimp only at hd
    simp only [List.mem_filterMap] at hd
    obtain ⟨r, _, hr⟩ := hd
    exact rcRowDiff_some_src _ _ _ _ _ _ _ hr

/-- C6 (witness for the amended theorem): the one diff the fixture analyze
emits has its planned source value 100, hence not all-null. -/
theorem rc_analyze_suppresses_all_null_witness :
    ¬(dRC.srcPlanned = none ∧ dRC.srcActual = none ∧ dRC.srcTimesheet = none) :=
  rc_analyze_suppresses_all_null shRCsrc shRCtgt [(blkA, blkA)] false false dRC
    (by decide)

lemma writeField_cells_ne (sh : Sheet × Nat) (ok : Bool) (r c : Nat) (v : Option ℚ)
    (r' c' : Nat) (h : ¬(r' = r ∧ c' = c)) :
    (writeField sh ok r c v).1.cells r' c' = sh.1.cells r' c' := by
  unfold writeField
  cases v with
  | none => rfl
  | some x =>
    dsimp only
    split
    · exact setCell_other sh.1 r c (.num x) r' c' h
    · rfl

lemma writeField_not_ok (sh : Sheet × Nat) (r c : Nat) (v : Option ℚ) :
    writeField sh false r c v = sh := by
  unfold writeField
  cases v <;> rfl

lemma writeField_some_ok (sh : Sheet × Nat) (r c : Nat) (x : ℚ) :
    writeField sh true r c (some x) = (setCell sh.1 r c (.num x), sh.2 + 1) := rfl

lemma rowWrites_cells_ne (cfg : TransferSettings) (blk : WeekBlock) (tot : Totals)
    (sheet : Sheet) (r : Nat) (r' c' : Nat) (h : r' ≠ r) :
    (rowWrites cfg blk tot sheet r).1.cells r' c' = sheet.cells r' c' := by
  unfold rowWrites
  dsimp only
  split
  · rw [writeField_cells_ne _ _ _ _ _ _ _ (by tauto),
      writeField_cells_ne _ _ _ _ _ _ _ (by tauto),
      writeField_cells_ne _ _ _ _ _ _ _ (by tauto)]
  · rfl

lemma rowStep_sheet_eq (cfg : TransferSettings) (blk : WeekBlock) (tot : Totals)
    (key : String) (st : TWState) (r : Nat) :
    (rowStep cfg blk tot key st r).sheet = (rowWrites cfg blk tot st.sheet r).1 := rfl

lemma rowStep_cells_ne (cfg : TransferSettings) (blk : WeekBlock) (tot : Totals)
    (key : String) (st : TWState) (r : Nat) (r' c' : Nat) (h : r' ≠ r) :
    (rowStep cfg blk tot key st r).sheet.cells r' c' = st.sheet.cells r' c' := by
  rw [rowStep_sheet_eq]
  exact rowWrites_cells_ne cfg blk tot st.sheet r r' c' h

lemma foldl_rowStep_cells_ne (cfg : TransferSettings) (blk : WeekBlock) (tot : Totals)
    (key : String) : ∀ (l : List Nat) (st : TWState) (r' c' : Nat), r' ∉ l →
    ((l.foldl (rowStep cfg blk tot key) st).sheet.cells r' c' = st.sheet.cells r' c') := by
  intro l
  induction l with
  | nil => intro st r' c' _; rfl
  | cons r rest ih =>
    intro st r' c' h
    rw [List.foldl_cons, ih _ _ _ (by simp at h; exact h.2),
      rowStep_cells_ne _ _ _ _ _ _ _ _ (by simp at h; exact h.1)]

lemma twStep_cells_frame (cfg : TransferSettings) (blk : WeekBlock)
    (M : List (String × List Nat)) (st : TWState) (kv : String × Totals)
    (r' c' : Nat) (h : ∀ rs', kmLookup M kv.1 = some rs' → r' ∉ rs') :
    (twStep cfg blk M st kv).sheet.cells r' c' = st.sheet.cells r' c' := by
  unfold twStep
  split
  · rfl
  · rename_i rows heq
    dsimp only
    split
    · rfl
    · have hrows := h rows heq
      refine foldl_rowStep_cells_ne cfg blk kv.2 kv.1 _ _ r' c' ?_
      split
      · exact hrows
      · intro hmem
        exact hrows (List.take_subset 1 rows hmem)

lemma foldl_twStep_cells_frame (cfg : TransferSettings) (blk : WeekBlock)
    (M : List (String × List Nat)) : ∀ (l : List (String × Totals)) (st : TWState)
    (r' c' : Nat), (∀ kv ∈ l, ∀ rs', kmLookup M kv.1 = some rs' → r' ∉ rs') →
    (l.foldl (twStep cfg blk M) st).sheet.cells r' c' = st.sheet.cells r' c' := by
  intro l
  induction l with
  | nil => intro st r' c' _; rfl
  | cons kv rest ih =>
    intro st r' c' h
    rw [List.foldl_cons, ih _ _ _ (fun kv' hkv' => h kv' (List.mem_cons_of_mem _ hkv')),
      twStep_cells_frame cfg blk M st kv r' c' (h kv (List.mem_cons_self ..))]

lemma kmKeys_cons {α : Type} (p : α × List Nat) (t : List (α × List Nat)) :
    kmKeys (p :: t) = p.1 :: kmKeys t := rfl

lemma kmKeys_insert {α : Type} [DecidableEq α] (k : α) (r : Nat) :
    ∀ m : List (α × List Nat), kmKeys (kmInsert m k r) =
      if k ∈ kmKeys m then kmKeys m else kmKeys m ++ [k] := by
  intro m
  induction m with
  | nil => simp [kmInsert, kmKeys]
  | cons p t ih =>
    obtain ⟨k', rs⟩ := p
    by_cases hk : k' = k
    · subst hk
      simp only [kmInsert, eq_self_iff_true, if_true, kmKeys_cons]
      rw [if_pos (List.mem_cons_self ..)]
    · simp only [kmInsert, if_neg hk, kmKeys_cons, ih]
      by_cases hm : k ∈ kmKeys t
      · rw [if_pos hm, if_pos (List.mem_cons.mpr (Or.inr hm))]
      · rw [if_neg hm, if_neg (by
          simp only [List.mem_cons, not_or]
          exact ⟨fun h => hk h.symm, hm⟩)]
        simp

lemma kmRows_cons {α : Type} (p : α × List Nat) (t : List (α × List Nat)) :
    kmRows (p :: t) = p.2 ++ kmRows t := by
  simp [kmRows]

lemma kmRows_insert_perm {α : Type} [DecidableEq α] (k : α) (r : Nat) :
    ∀ m : List (α × List Nat), (kmRows (kmInsert m k r)).Perm (kmRows m ++ [r]) := by
  intro m
  induction m with
  | nil => simp [kmInsert, kmRows]
  | cons p t ih =>
    obtain ⟨k', rs⟩ := p
    by_cases hk : k' = k
    · subst hk
      simp only [kmInsert, eq_self_iff_true, if_true, kmRows_cons, List.append_assoc]
      exact List.Perm.append_left rs List.perm_append_comm
    · simp only [kmInsert, if_neg hk, kmRows_cons, List.append_assoc]
      exact List.Perm.append_left rs (by simpa using ih)

lemma bkm_fold_inv (ws : Sheet) : ∀ (n s : Nat) (m : List (String × List Nat)),
    (kmKeys m).Nodup → (kmRows m).Nodup → (∀ x ∈ kmRows m, x < s) →
    (kmKeys ((List.range' s n).foldl (bkmStep ws) m)).Nodup ∧
    (kmRows ((List.range' s n).foldl (bkmStep ws) m)).Nodup ∧
    (∀ x ∈ kmRows ((List.range' s n).foldl (bkmStep ws) m), x < s + n) := by
  intro n
  induction n with
  | zero =>
    intro s m h1 h2 h3
    exact ⟨h1, h2, fun x hx => by simpa using h3 x hx⟩
  | succ n ih =>
    intro s m h1 h2 h3
    rw [List.range'_succ, List.foldl_cons]
    have hstep : (kmKeys (bkmStep ws m s)).Nodup ∧ (kmRows (bkmStep ws m s)).Nodup ∧
        (∀ x ∈ kmRows (bkmStep ws m s), x < s + 1) := by
      unfold bkmStep
      dsimp only
      split
      · exact ⟨h1, h2, fun x hx => Nat.lt_succ_of_lt (h3 x hx)⟩
      · refine ⟨?_, ?_, ?_⟩
        · rw [kmKeys_insert]
          split
          · exact h1
          · simp only [List.nodup_append, List.nodup_cons, List.nodup_nil]
            refine ⟨h1, by simp, ?_⟩
            intro a ha
            simp only [List.mem_singleton]
            rename_i hnot
            intro heq
            exact hnot (heq ▸ ha)
        · refine ((kmRows_insert_perm _ s m).nodup_iff).mpr ?_
          simp only [List.nodup_append, List.nodup_cons, List.nodup_nil]
          exact ⟨h2, by simp, fun a ha => by
            simp only [List.mem_singleton]
            intro heq
            exact absurd (h3 a ha) (by omega)⟩
        · intro x hx
          have := (kmRows_insert_perm _ s m).mem_iff.mp hx
          rcases List.mem_append.mp this with h | h
          · exact Nat.lt_succ_of_lt (h3 x h)
          · simp only [List.mem_singleton] at h
            omega
    have := ih (s + 1) (bkmStep ws m s) hstep.1 hstep.2.1 hstep.2.2
    refine ⟨this.1, this.2.1, fun x hx => ?_⟩
    have := this.2.2 x hx
    omega

lemma buildKeyMap_keys_nodup (ws : Sheet) (s : Nat) :
    (kmKeys (buildKeyMap ws s)).Nodup := by
  unfold buildKeyMap rowRange
  exact (bkm_fold_inv ws _ s [] (by simp [kmKeys]) (by simp [kmRows])
    (by simp [kmRows])).1

lemma buildKeyMap_rows_nodup (ws : Sheet) (s : Nat) :
    (kmRows (buildKeyMap ws s)).Nodup := by
  unfold buildKeyMap rowRange
  exact (bkm_fold_inv ws _ s [] (by simp [kmKeys]) (by simp [kmRows])
    (by simp [kmRows])).2.1

lemma mem_kmRows {α : Type} (m : List (α × List Nat)) (k : α) (rs : List Nat)
    (h : (k, rs) ∈ m) (x : Nat) (hx : x ∈ rs) : x ∈ kmRows m := by
  simp only [kmRows, List.mem_flatten]
  exact ⟨rs, List.mem_map.mpr ⟨(k, rs), h, rfl⟩, hx⟩

lemma km_entry_rows_nodup {α : Type} (m : List (α × List Nat)) (k : α) (rs : List Nat)
    (hr : (kmRows m).Nodup) (h : (k, rs) ∈ m) : rs.Nodup := by
  have : rs ∈ m.map Prod.snd := List.mem_map.mpr ⟨(k, rs), h, rfl⟩
  exact ((List.nodup_flatten.mp hr).1 rs this)

lemma km_disjoint {α : Type} (m : List (α × List Nat)) (k1 k2 : α)
    (rs1 rs2 : List Nat) (hk : (kmKeys m).Nodup) (hr : (kmRows m).Nodup)
    (h1 : (k1, rs1) ∈ m) (h2 : (k2, rs2) ∈ m) (hne : k1 ≠ k2) :
    ∀ x ∈ rs1, x ∉ rs2 := by
  induction m with
  | nil => cases h1
  | cons p t ih =>
    obtain ⟨k0, rs0⟩ := p
    have hkeys : k0 ∉ kmKeys t ∧ (kmKeys t).Nodup := by
      simpa [kmKeys] using hk
    have hrows : rs0.Nodup ∧ (kmRows t).Nodup ∧ ∀ x ∈ rs0, x ∉ kmRows t := by
      rw [kmRows_cons] at hr
      simpa [List.nodup_append, List.disjoint_left] using hr
    rcases List.mem_cons.mp h1 with he1 | h1'
    · rcases List.mem_cons.mp h2 with he2 | h2'
      · have e1 := congrArg Prod.fst he1
        have e2 := congrArg Prod.fst he2
        simp only at e1 e2
        exact absurd (e1.trans e2.symm) hne
      · intro x hx
        have hx0 : x ∈ rs0 := by cases he1; exact hx
        intro hx2
        exact hrows.2.2 x hx0 (mem_kmRows t k2 rs2 h2' x hx2)
    · rcases List.mem_cons.mp h2 with he2 | h2'
      · intro x hx hx2
        have hx0 : x ∈ rs0 := by cases he2; exact hx2
        exact hrows.2.2 x hx0 (mem_kmRows t k1 rs1 h1' x hx)
      · exact ih hkeys.2 hrows.2.1 h1' h2'

lemma kmLookup_mem {α : Type} [DecidableEq α] (m : List (α × List Nat)) (k : α)
    (rs : List Nat) (h : kmLookup m k = some rs) : (k, rs) ∈ m := by
  unfold kmLookup at h
  rw [Option.map_eq_some'] at h
  obtain ⟨a, ha, hrs⟩ := h
  have hmem := List.mem_of_find?_eq_some ha
  have hpred : a.1 = k := by
    have := List.find?_some ha
    simpa using this
  obtain ⟨a1, a2⟩ := a
  cases hpred
  cases hrs
  exact hmem

lemma okCell_of_formula (cfg : TransferSettings) (v : CellVal)
    (hov : cfg.overwriteFormulas = false) (hf : isFormulaCell v = true) :
    okCell cfg.overwriteFormulas v = false := by
  rw [hov]
  simp [okCell, hf]

lemma okCell_of_clear (cfg : TransferSettings) (v : CellVal)
    (hf : isFormulaCell v = false) : okCell cfg.overwriteFormulas v = true := by
  simp [okCell, hf]

lemma rowWrites_planned_formula (cfg : TransferSettings) (blk : WeekBlock)
    (tot : Totals) (sheet : Sheet) (r : Nat) (hov : cfg.overwriteFormulas = false)
    (hf : isFormulaCell (sheet.cells r blk.startCol) = true) :
    (rowWrites cfg blk tot sheet r).1.cells r blk.startCol =
      sheet.cells r blk.startCol := by
  unfold rowWrites
  dsimp only
  split
  · rw [writeField_cells_ne _ _ _ _ _ _ _ (by omega),
      writeField_cells_ne _ _ _ _ _ _ _ (by omega),
      okCell_of_formula cfg _ hov hf, writeField_not_ok]
  · rfl

lemma rowWrites_planned_write (cfg : TransferSettings) (blk : WeekBlock)
    (tot : Totals) (sheet : Sheet) (r : Nat) (hov : cfg.overwriteFormulas = false)
    (hf : isFormulaCell (sheet.cells r blk.startCol) = false)
    (hact : actionOf cfg.overwriteFormulas tot (sheet.cells r blk.startCol)
      (sheet.cells r (blk.startCol + 2)) (sheet.cells r (blk.startCol + 4)) = "write")
    (p : ℚ) (hp : tot.planned = some p) :
    (rowWrites cfg blk tot sheet r).1.cells r blk.startCol = .num p := by
  unfold rowWrites
  dsimp only
  rw [if_pos hact, writeField_cells_ne _ _ _ _ _ _ _ (by omega),
    writeField_cells_ne _ _ _ _ _ _ _ (by omega), hp,
    okCell_of_clear cfg _ hf, writeField_some_ok]
  exact setCell_same ..

lemma rowWrites_actual_formula (cfg : TransferSettings) (blk : WeekBlock)
    (tot : Totals) (sheet : Sheet) (r : Nat) (hov : cfg.overwriteFormulas = false)
    (hf : isFormulaCell (sheet.cells r (blk.startCol + 2)) = true) :
    (rowWrites cfg blk tot sheet r).1.cells r (blk.startCol + 2) =
      sheet.cells r (blk.startCol + 2) := by
  unfold rowWrites
  dsimp only
  split
  · rw [writeField_cells_ne _ _ _ _ _ _ _ (by omega),
      okCell_of_formula cfg _ hov hf, writeField_not_ok,
      writeField_cells_ne _ _ _ _ _ _ _ (by omega)]
  · rfl

lemma rowWrites_actual_write (cfg : TransferSettings) (blk : WeekBlock)
    (tot : Totals) (sheet : Sheet) (r : Nat) (hov : cfg.overwriteFormulas = false)
    (hf : isFormulaCell (sheet.cells r (blk.startCol + 2)) = false)
    (hact : actionOf cfg.overwriteFormulas tot (sheet.cells r blk.startCol)
      (sheet.cells r (blk.startCol + 2)) (sheet.cells r (blk.startCol + 4)) = "write")
    (a : ℚ) (ha : tot.actual = some a) :
    (rowWrites cfg blk tot sheet r).1.cells r (blk.startCol + 2) = .num a := by
  unfold rowWrites
  dsimp only
  rw [if_pos hact, writeField_cells_ne _ _ _ _ _ _ _ (by omega), ha,
    okCell_of_clear cfg _ hf, writeField_some_ok]
  exact setCell_same ..

lemma rowWrites_timesheet_formula (cfg : TransferSettings) (blk : WeekBlock)
    (tot : Totals) (sheet : Sheet) (r : Nat) (hov : cfg.overwriteFormulas = false)
    (hf : isFormulaCell (sheet.cells r (blk.startCol + 4)) = true) :
    (rowWrites cfg blk tot sheet r).1.cells r (blk.startCol + 4) =
      sheet.cells r (blk.startCol + 4) := by
  unfold rowWrites
  dsimp only
  split
  · rw [okCell_of_formula cfg _ hov hf, writeField_not_ok,
      writeField_cells_ne _ _ _ _ _ _ _ (by omega),
      writeField_cells_ne _ _ _ _ _ _ _ (by omega)]
  · rfl

lemma rowWrites_timesheet_write (cfg : TransferSettings) (blk : WeekBlock)
    (tot : Totals) (sheet : Sheet) (r : Nat) (hov : cfg.overwriteFormulas = false)
    (hf : isFormulaCell (sheet.cells r (blk.startCol + 4)) = false)
    (hact : actionOf cfg.overwriteFormulas tot (sheet.cells r blk.startCol)
      (sheet.cells r (blk.startCol + 2)) (sheet.cells r (blk.startCol + 4)) = "write")
    (t : ℚ) (ht : tot.timesheet = some t) :
    (rowWrites cfg blk tot sheet r).1.cells r (blk.startCol + 4) = .num t := by
  unfold rowWrites
  dsimp only
  rw [if_pos hact, ht, okCell_of_clear cfg _ hf, writeField_some_ok]
  exact setCell_same ..

lemma twStep_some (cfg : TransferSettings) (blk : WeekBlock)
    (M : List (String × List Nat)) (st : TWState) (kv : String × Totals)
    (rows : List Nat) (h : kmLookup M kv.1 = some rows)
    (hne : rows.isEmpty = false) :
    twStep cfg blk M st kv =
      (if cfg.writeAllDuplicates then rows else rows.take 1).foldl
        (rowStep cfg blk kv.2 kv.1)
        { st with logs := st.logs ++ dupLog cfg kv.1 rows } := by
  unfold twStep
  rw [h]
  dsimp only
  rw [hne]
  rfl

lemma aggregateSource_keys (ws : Sheet) (blk : WeekBlock) (s : Nat) :
    (aggregateSource ws blk s).1.map Prod.fst = kmKeys (buildKeyMap ws s) := by
  unfold aggregateSource
  dsimp only
  rw [List.map_map]
  rfl

/-- How many of the three target cells of one row hold a formula. -/
def formulaCount (pv av tv : CellVal) : Nat :=
  (if isFormulaCell pv then 1 else 0) + (if isFormulaCell av then 1 else 0)
    + (if isFormulaCell tv then 1 else 0)

/-- C1: formula protection is enforced per cell, not per row.  For every
matched key of the week-block transfer whose row has action `"write"`, with
`overwrite_formulas` off and exactly one of the three target cells holding a
formula, `transfer_week` leaves the formula cell's value untouched and
writes each other cell whose source field is non-null. -/
theorem transferWeek_per_cell_formula_protection
    (src tgt : Sheet) (sblk tblk : WeekBlock) (cfg : TransferSettings)
    (k : String) (tot : Totals) (rs : List Nat) (r : Nat)
    (hov : cfg.overwriteFormulas = false)
    (hmem : (k, tot) ∈ (aggregateSource src sblk (findDataStartRow src 14)).1)
    (hlk : kmLookup (buildKeyMap tgt (findDataStartRow tgt 14)) k = some rs)
    (hr : r ∈ (if cfg.writeAllDuplicates then rs else rs.take 1))
    (hact : actionOf cfg.overwriteFormulas tot (tgt.cells r tblk.startCol)
      (tgt.cells r (tblk.startCol + 2)) (tgt.cells r (tblk.startCol + 4)) = "write")
    (hexact : formulaCount (tgt.cells r tblk.startCol)
      (tgt.cells r (tblk.startCol + 2)) (tgt.cells r (tblk.startCol + 4)) = 1) :
    (isFormulaCell (tgt.cells r tblk.startCol) = true →
      (transferWeek src tgt sblk tblk cfg).2.cells r tblk.startCol =
        tgt.cells r tblk.startCol) ∧
    (isFormulaCell (tgt.cells r tblk.startCol) = false → ∀ p, tot.planned = some p →
      (transferWeek src tgt sblk tblk cfg).2.cells r tblk.startCol = .num p) ∧
    (isFormulaCell (tgt.cells r (tblk.startCol + 2)) = true →
      (transferWeek src tgt sblk tblk cfg).2.cells r (tblk.startCol + 2) =
        tgt.cells r (tblk.startCol + 2)) ∧
    (isFormulaCell (tgt.cells r (tblk.startCol + 2)) = false → ∀ a, tot.actual = some a →
      (transferWeek src tgt sblk tblk cfg).2.cells r (tblk.startCol + 2) = .num a) ∧
    (isFormulaCell (tgt.cells r (tblk.startCol + 4)) = true →
      (transferWeek src tgt sblk tblk cfg).2.cells r (tblk.startCol + 4) =
        tgt.cells r (tblk.startCol + 4)) ∧
    (isFormulaCell (tgt.cells r (tblk.startCol + 4)) = false → ∀ t, tot.timesheet = some t →
      (transferWeek src tgt sblk tblk cfg).2.cells r (tblk.startCol + 4) = .num t) := by
  obtain ⟨S1, S2, hsplit⟩ := List.append_of_mem hmem
  have hM := buildKeyMap_keys_nodup tgt (findDataStartRow tgt 14)
  have hMr := buildKeyMap_rows_nodup tgt (findDataStartRow tgt 14)
  have hkrs : (k, rs) ∈ buildKeyMap tgt (findDataStartRow tgt 14) :=
    kmLookup_mem _ _ _ hlk
  have hrsnd : rs.Nodup := km_entry_rows_nodup _ _ _ hMr hkrs
  have hrrs : r ∈ rs := by
    by_cases hwa : cfg.writeAllDuplicates
    · rw [if_pos hwa] at hr; exact hr
    · rw [if_neg hwa] at hr; exact List.take_subset 1 rs hr
  have hOther : ∀ k', k' ≠ k → ∀ rs',
      kmLookup (buildKeyMap tgt (findDataStartRow tgt 14)) k' = some rs' →
      r ∉ rs' := by
    intro k' hk' rs' hlk'
    exact km_disjoint _ k k' rs rs' hM hMr hkrs (kmLookup_mem _ _ _ hlk')
      (fun h => hk' h.symm) r hrrs
  have hSnd : (((aggregateSource src sblk (findDataStartRow src 14)).1.map
      Prod.fst)).Nodup := by
    rw [aggregateSource_keys]
    exact buildKeyMap_keys_nodup ..
  rw [hsplit, List.map_append, List.map_cons, List.nodup_append] at hSnd
  obtain ⟨hnd1, hnd2, hdisj⟩ := hSnd
  have hS1 : ∀ kv ∈ S1, kv.1 ≠ k := by
    intro kv hkv heq
    have h1 : kv.1 ∈ S1.map Prod.fst := List.mem_map_of_mem _ hkv
    exact hdisj h1 (by rw [heq]; exact List.mem_cons_self ..)
  have hS2 : ∀ kv ∈ S2, kv.1 ≠ k := by
    intro kv hkv heq
    have h1 : kv.1 ∈ S2.map Prod.fst := List.mem_map_of_mem _ hkv
    rw [heq] at h1
    exact (List.nodup_cons.mp hnd2).1 h1
  -- unfold the transfer to the key fold
  have hfin : (transferWeek src tgt sblk tblk cfg).2 =
      ((aggregateSource src sblk (findDataStartRow src 14)).1.foldl
        (twStep cfg tblk (buildKeyMap tgt (findDataStartRow tgt 14)))
        ⟨tgt, [], [], 0, 0, 0⟩).sheet := rfl
  have hrtw := List.append_of_mem hr
  obtain ⟨R1, R2, hrtweq⟩ := hrtw
  have hrtwnd : (if cfg.writeAllDuplicates then rs else rs.take 1).Nodup := by
    by_cases hwa : cfg.writeAllDuplicates
    · rw [if_pos hwa]; exact hrsnd
    · rw [if_neg hwa]; exact (List.take_sublist 1 rs).nodup hrsnd
  rw [hrtweq, List.nodup_append] at hrtwnd
  obtain ⟨hR1nd, hR2nd, hRdisj⟩ := hrtwnd
  have hrR1 : r ∉ R1 := fun h => hRdisj h (List.mem_cons_self ..)
  have hrR2 : r ∉ R2 := (List.nodup_cons.mp hR2nd).1
  have hrsne : rs.isEmpty = false := by
    cases rs with
    | nil => cases hrrs
    | cons a t => rfl
  -- the cells of the final sheet at row r agree with the single rowStep at r
  have hkey : ∀ c', (transferWeek src tgt sblk tblk cfg).2.cells r c' =
      (rowStep cfg tblk tot k
        (R1.foldl (rowStep cfg tblk tot k)
          { (S1.foldl (twStep cfg tblk (buildKeyMap tgt (findDataStartRow tgt 14)))
              ⟨tgt, [], [], 0, 0, 0⟩) with
            logs := (S1.foldl (twStep cfg tblk (buildKeyMap tgt (findDataStartRow tgt 14)))
              ⟨tgt, [], [], 0, 0, 0⟩).logs ++ dupLog cfg k rs }) r).sheet.cells r c' := by
    intro c'
    rw [hfin, hsplit, List.foldl_append, List.foldl_cons]
    rw [foldl_twStep_cells_frame cfg tblk _ S2 _ r c'
      (fun kv hkv rs' hlk' => hOther kv.1 (hS2 kv hkv) rs' hlk')]
    rw [twStep_some cfg tblk _ _ (k, tot) rs hlk hrsne]
    rw [hrtweq, List.foldl_append, List.foldl_cons]
    rw [foldl_rowStep_cells_ne cfg tblk tot k R2 _ r c' hrR2]
  -- the sheet seen by that rowStep agrees with the original target at row r
  have hB : ∀ c', (R1.foldl (rowStep cfg tblk tot k)
      { (S1.foldl (twStep cfg tblk (buildKeyMap tgt (findDataStartRow tgt 14)))
          ⟨tgt, [], [], 0, 0, 0⟩) with
        logs := (S1.foldl (twStep cfg tblk (buildKeyMap tgt (findDataStartRow tgt 14)))
          ⟨tgt, [], [], 0, 0, 0⟩).logs ++ dupLog cfg k rs }).sheet.cells r c' =
      tgt.cells r c' := by
    intro c'
    rw [foldl_rowStep_cells_ne cfg tblk tot k R1 _ r c' hrR1]
    exact foldl_twStep_cells_frame cfg tblk _ S1 _ r c'
      (fun kv hkv rs' hlk' => hOther kv.1 (hS1 kv hkv) rs' hlk')
  refine ⟨?_, ?_, ?_, ?_, ?_, ?_⟩
  · intro hf
    rw [hkey, rowStep_sheet_eq,
      rowWrites_planned_formula cfg tblk tot _ r hov (by rw [hB]; exact hf), hB]
  · intro hf p hp
    rw [hkey, rowStep_sheet_eq]
    exact rowWrites_planned_write cfg tblk tot _ r hov (by rw [hB]; exact hf)
      (by rw [hB, hB, hB]; exact hact) p hp
  · intro hf
    rw [hkey, rowStep_sheet_eq,
      rowWrites_actual_formula cfg tblk tot _ r hov (by rw [hB]; exact hf), hB]
  · intro hf a ha
    rw [hkey, rowStep_sheet_eq]
    exact rowWrites_actual_write cfg tblk tot _ r hov (by rw [hB]; exact hf)
      (by rw [hB, hB, hB]; exact hact) a ha
  · intro hf
    rw [hkey, rowStep_sheet_eq,
      rowWrites_timesheet_formula cfg tblk tot _ r hov (by rw [hB]; exact hf), hB]
  · intro hf t ht
    rw [hkey, rowStep_sheet_eq]
    exact rowWrites_timesheet_write cfg tblk tot _ r hov (by rw [hB]; exact hf)
      (by rw [hB, hB, hB]; exact hact) t ht

/-- C1 (witness): on the fixture — matched key "steel", planned cell holding
a formula, actual/timesheet clear, `overwrite_formulas` off, action write —
`transfer_week` leaves the formula untouched and writes 50.0 and 10.0 into
the other two cells. -/
theorem transferWeek_per_cell_formula_protection_witness :
    (transferWeek shFPsrc shFPtgt blkA blkA cfgFF).2.cells 14 4 = .str "=SUM(A1)" ∧
    (transferWeek shFPsrc shFPtgt blkA blkA cfgFF).2.cells 14 6 = .num 50 ∧
    (transferWeek shFPsrc shFPtgt blkA blkA cfgFF).2.cells 14 8 = .num 10 := by
  have h := transferWeek_per_cell_formula_protection shFPsrc shFPtgt blkA blkA cfgFF
    "steel" totFP [14] 14 (by decide) (by decide) (by decide) (by decide) (by decide)
    (by decide)
  exact ⟨h.1 (by decide), h.2.2.2.1 (by decide) 50 rfl, h.2.2.2.2.2 (by decide) 10 rfl⟩
